import Mathlib

/-!
Shallow embedding of the steam-client library core: title normalization
(TitleNormalizer.ts), the token-bucket rate limiter (ApiClient.ts), the
TTL/LRU cache wrapper, the fuzzy game matcher (GameMatcher.ts), the
adult-content detector, the metadata price formatting, and the SteamClient
facade operations.  Machine floats are modelled as exact rationals, wall
clock time as explicit natural-number millisecond timestamps, mutable
object state as explicit state passing, and the external collaborators
(the network transport and the fuse.js search library) as oracles supplied
per call.  Theorems at the end settle the frozen claims C1 to C10.
-/

/-! Data model -/

/-- Basic Steam game record: app id, display name, optional match score. -/
structure SteamGame where
  appId : String
  name : String
  matchScore : Option ℚ := none
deriving DecidableEq, Repr

/-- Category record from the Steam details payload. -/
structure Category where
  id : Nat
  description : String
deriving DecidableEq, Repr

/-- Price overview record from the Steam details payload. -/
structure PriceOverview where
  currency : String
  initial : Int
  final : Int
  discountPercent : Int
  initialFormatted : String
  finalFormatted : String
deriving DecidableEq, Repr

/-- Steam game details record, restricted to the fields the embedded
operations read (age gate, free flag, price, categories, content
descriptor ids). -/
structure SteamGameDetails where
  appId : String
  name : String
  requiredAge : Nat
  isFree : Bool
  priceOverview : Option PriceOverview
  categories : List Category
  contentDescriptorIds : List Nat
deriving DecidableEq, Repr

/-- Error taxonomy of SteamErrors.ts: rate limited, not found, generic API
failure with status, invalid key. -/
inductive SteamErr where
  | rateLimit (retryAfter : Int)
  | notFound (msg : String)
  | apiError (status : Nat)
  | invalidKey
deriving DecidableEq, Repr

/-! Title normalizer (TitleNormalizer.ts).  Each regex replacement of the
source is embedded as a left-to-right scan deleting non-overlapping
matches, exactly as a global regex replace with an empty replacement
behaves. -/

namespace TitleNormalizer

/-- Whitespace characters matched by the backslash-s class of the source
regexes, restricted to ASCII. -/
def isWs (c : Char) : Bool :=
  c == ' ' || c == Char.ofNat 9 || c == Char.ofNat 10 || c == Char.ofNat 13 ||
  c == Char.ofNat 11 || c == Char.ofNat 12

/-- Word characters for the backslash-b boundaries of the edition
patterns. -/
def isWordChar (c : Char) : Bool :=
  c.isAlpha || c.isDigit || c == '_'

/-- Case-insensitive literal prefix match; returns the unconsumed
remainder on success. -/
def matchCI : List Char → List Char → Option (List Char)
  | [], s => some s
  | _ :: _, [] => none
  | p :: ps, c :: cs => if p.toLower == c.toLower then matchCI ps cs else none

/-- Skip up to and through the first occurrence of the closing character,
as the greedy run of non-closing characters followed by the closer does. -/
def dropThroughClose (close : Char) : List Char → Option (List Char)
  | [] => none
  | c :: cs => if c == close then some cs else dropThroughClose close cs

/-- A pattern matcher at one scan position: given the previous character of
the scanned string (none at the start) and the current suffix, returns the
last consumed character and the remainder when the pattern matches here. -/
def PatMatcher : Type := Option Char → List Char → Option (Char × List Char)

/-- Matcher for the bracketed FitGirl patterns: the opening bracket, the
words FitGirl Repack case-insensitively, a run of non-closing characters,
then the closing bracket. -/
def fitgirlBracket (openC closeC : Char) : PatMatcher := fun _ s =>
  match s with
  | [] => none
  | c :: cs =>
    if c == openC then
      match matchCI (String.toList "FitGirl Repack") cs with
      | some rest =>
        match dropThroughClose closeC rest with
        | some rest2 => some (closeC, rest2)
        | none => none
      | none => none
    else none

/-- Matcher for a case-insensitive literal pattern with no boundary
conditions. -/
def literalCI (pat : String) : PatMatcher := fun _ s =>
  match matchCI pat.toList s with
  | some rest =>
    match pat.toList.getLast? with
    | some lastC => some (lastC, rest)
    | none => none
  | none => none

/-- Matcher for a case-insensitive whole-word pattern with word boundaries
on both sides. -/
def wordCI (pat : String) : PatMatcher := fun prev s =>
  let boundaryLeft :=
    match prev with
    | none => true
    | some c => !isWordChar c
  if boundaryLeft then
    match matchCI pat.toList s with
    | some rest =>
      let boundaryRight :=
        match rest with
        | [] => true
        | c :: _ => !isWordChar c
      if boundaryRight then
        match pat.toList.getLast? with
        | some lastC => some (lastC, rest)
        | none => none
      else none
    | none => none
  else none

/-- Fueled left-to-right scan deleting every non-overlapping match; the
fuel is the length of the scanned list, enough because every match
consumes at least one character. -/
def scanRemove (m : PatMatcher) : Nat → Option Char → List Char → List Char
  | 0, _, s => s
  | _ + 1, _, [] => []
  | fuel + 1, prev, c :: cs =>
    match m prev (c :: cs) with
    | some (lastC, rest) => scanRemove m fuel (some lastC) rest
    | none => c :: scanRemove m fuel (some c) cs

/-- Delete every match of the pattern from the list, left to right. -/
def removeAll (m : PatMatcher) (s : List Char) : List Char :=
  scanRemove m s.length none s

/-- Remove repack markers, applying the five REPACK_PATTERNS of the source
in order. -/
def removeRepackMarkers (s : List Char) : List Char :=
  let s1 := removeAll (fitgirlBracket '(' ')') s
  let s2 := removeAll (fitgirlBracket '[' ']') s1
  let s3 := removeAll (literalCI "(Repack)") s2
  let s4 := removeAll (literalCI "[Repack]") s3
  removeAll (literalCI "- Repack") s4

/-- Edition phrases of EDITION_PATTERNS, in source order. -/
def editionPhrases : List String :=
  ["Complete Edition", "GOTY", "Game of the Year", "Definitive Edition",
   "Ultimate Edition", "Deluxe Edition", "Premium Edition",
   "Enhanced Edition", "Remastered", "Remake"]

/-- Remove edition suffixes, one whole-word pass per phrase in order. -/
def removeEditionSuffixes (s : List Char) : List Char :=
  editionPhrases.foldl (fun acc p => removeAll (wordCI p) acc) s

/-- Characters kept by removeSpecialCharacters: letters, digits,
whitespace, hyphen, apostrophe. -/
def isAllowedChar (c : Char) : Bool :=
  c.isAlpha || c.isDigit || isWs c || c == '-' || c == Char.ofNat 39

/-- Replace every disallowed character with a single space. -/
def removeSpecialCharacters (s : List Char) : List Char :=
  s.map (fun c => if isAllowedChar c then c else ' ')

/-- Collapse each maximal run of whitespace to a single space; the flag
records whether the previous character was whitespace. -/
def collapseWs : Bool → List Char → List Char
  | _, [] => []
  | prevWs, c :: cs =>
    if isWs c then
      if prevWs then collapseWs true cs else ' ' :: collapseWs true cs
    else c :: collapseWs false cs

/-- Trim leading and trailing whitespace. -/
def trimWs (s : List Char) : List Char :=
  ((s.dropWhile isWs).reverse.dropWhile isWs).reverse

/-- Characters stripped from the edges by the final cleanup: hyphens and
whitespace. -/
def isHyphenOrWs (c : Char) : Bool := c == '-' || isWs c

/-- Strip trailing then leading hyphens and spaces. -/
def stripEdges (s : List Char) : List Char :=
  ((s.reverse.dropWhile isHyphenOrWs).reverse).dropWhile isHyphenOrWs

/-- Normalize a game title exactly as TitleNormalizer.normalize does:
guard the empty string, remove repack markers, remove edition suffixes,
replace special characters with spaces, collapse whitespace, trim,
lowercase, and strip edge hyphens and spaces. -/
def normalize (title : String) : String :=
  if title == "" then ""
  else
    let s0 := title.toList
    let s1 := removeRepackMarkers s0
    let s2 := removeEditionSuffixes s1
    let s3 := removeSpecialCharacters s2
    let s4 := collapseWs false s3
    let s5 := trimWs s4
    let s6 := s5.map Char.toLower
    String.mk (stripEdges s6)

end TitleNormalizer

/-! Token bucket rate limiter (TokenBucket class of ApiClient.ts).  The
floating point token count is modelled as a rational; Date.now timestamps
are explicit natural number arguments. -/

/-- Token bucket state: configured capacity and refill interval, current
fractional token count, and the timestamp of the last refill. -/
structure TokenBucket where
  capacity : ℚ
  refillInterval : ℚ
  tokens : ℚ
  lastRefill : Nat
deriving DecidableEq, Repr

namespace TokenBucket

/-- Constructor: the bucket starts full with lastRefill set to now. -/
def init (capacity refillInterval : ℚ) (now : Nat) : TokenBucket :=
  { capacity := capacity, refillInterval := refillInterval,
    tokens := capacity, lastRefill := now }

/-- Amount of tokens accrued over an elapsed time span: the elapsed
fraction of the refill interval times the capacity. -/
def tokensToAdd (b : TokenBucket) (elapsed : ℤ) : ℚ :=
  (elapsed : ℚ) / b.refillInterval * b.capacity

/-- Refill tokens based on elapsed time since the last refill, clamping at
capacity; a non-positive elapsed time leaves the bucket unchanged. -/
def refill (b : TokenBucket) (now : Nat) : TokenBucket :=
  if 0 < (now : ℤ) - (b.lastRefill : ℤ) then
    { b with
      tokens := min b.capacity (b.tokens + b.tokensToAdd ((now : ℤ) - (b.lastRefill : ℤ))),
      lastRefill := now }
  else b

/-- Try to consume one token: refill first, then decrement one token when
at least one whole token is available. -/
def tryConsume (b : TokenBucket) (now : Nat) : Bool × TokenBucket :=
  let b1 := b.refill now
  if 1 ≤ b1.tokens then (true, { b1 with tokens := b1.tokens - 1 })
  else (false, b1)

/-- Timestamp when the next request will be allowed: refill first, return
now when a token is available, otherwise now plus the ceiling of the time
needed to accrue the deficit at the per-token rate. -/
def getRetryAfter (b : TokenBucket) (now : Nat) : Int × TokenBucket :=
  let b1 := b.refill now
  if 1 ≤ b1.tokens then ((now : Int), b1)
  else
    let timePerToken : ℚ := b1.refillInterval / b1.capacity
    let tokensNeeded : ℚ := 1 - b1.tokens
    let timeUntilNextToken : ℤ := ⌈tokensNeeded * timePerToken⌉
    ((now : Int) + timeUntilNextToken, b1)

/-- Diagnostic token count: refill, then floor the fractional count. -/
def getAvailableTokens (b : TokenBucket) (now : Nat) : Int × TokenBucket :=
  let b1 := b.refill now
  (⌊b1.tokens⌋, b1)

/-- Public operations of the bucket, for sequences of calls. -/
inductive BucketOp where
  | tryConsume
  | getRetryAfter
  | getAvailableTokens
deriving DecidableEq, Repr

/-- Apply one timestamped operation to the bucket state. -/
def applyOp (b : TokenBucket) : Nat × BucketOp → TokenBucket
  | (now, .tryConsume) => (b.tryConsume now).2
  | (now, .getRetryAfter) => (b.getRetryAfter now).2
  | (now, .getAvailableTokens) => (b.getAvailableTokens now).2

/-- Run a sequence of timestamped operations. -/
def runOps (b : TokenBucket) : List (Nat × BucketOp) → TokenBucket
  | [] => b
  | op :: rest => runOps (b.applyOp op) rest

/-- Bucket well-formedness: positive refill interval and a token count in
the closed interval from zero to capacity. -/
def Inv (b : TokenBucket) : Prop :=
  0 < b.refillInterval ∧ 0 ≤ b.tokens ∧ b.tokens ≤ b.capacity

theorem refill_capacity (b : TokenBucket) (now : Nat) :
    (b.refill now).capacity = b.capacity := by
  unfold refill
  split <;> rfl

theorem refill_interval (b : TokenBucket) (now : Nat) :
    (b.refill now).refillInterval = b.refillInterval := by
  unfold refill
  split <;> rfl

theorem refill_inv (b : TokenBucket) (now : Nat) (h : Inv b) :
    Inv (b.refill now) := by
  obtain ⟨hI, h0, hc⟩ := h
  have hcap : (0 : ℚ) ≤ b.capacity := le_trans h0 hc
  unfold refill
  split
  case isTrue helapsed =>
    have hadd : (0 : ℚ) ≤ b.tokensToAdd ((now : ℤ) - (b.lastRefill : ℤ)) := by
      unfold tokensToAdd
      apply mul_nonneg
      · apply div_nonneg
        · exact_mod_cast le_of_lt helapsed
        · exact le_of_lt hI
      · exact hcap
    refine ⟨hI, ?_, ?_⟩
    · show (0 : ℚ) ≤ min b.capacity (b.tokens + b.tokensToAdd _)
      simp only [le_min_iff]
      exact ⟨hcap, by linarith⟩
    · exact min_le_left _ _
  case isFalse _ => exact ⟨hI, h0, hc⟩

theorem tryConsume_state (b : TokenBucket) (now : Nat) :
    (b.tryConsume now).2 =
      if 1 ≤ (b.refill now).tokens then
        { b.refill now with tokens := (b.refill now).tokens - 1 }
      else b.refill now := by
  unfold tryConsume
  dsimp only
  split <;> rfl

theorem getRetryAfter_state (b : TokenBucket) (now : Nat) :
    (b.getRetryAfter now).2 = b.refill now := by
  unfold getRetryAfter
  dsimp only
  split <;> rfl

theorem getAvailableTokens_state (b : TokenBucket) (now : Nat) :
    (b.getAvailableTokens now).2 = b.refill now := rfl

theorem applyOp_inv (b : TokenBucket) (op : Nat × BucketOp) (h : Inv b) :
    Inv (b.applyOp op) := by
  obtain ⟨now, k⟩ := op
  have h1 := refill_inv b now h
  obtain ⟨hI, h0, hc⟩ := h1
  cases k
  case tryConsume =>
    show Inv (b.tryConsume now).2
    rw [tryConsume_state]
    split
    case isTrue hge =>
      refine ⟨?_, ?_, ?_⟩ <;> dsimp only <;> linarith
    case isFalse _ => exact ⟨hI, h0, hc⟩
  case getRetryAfter =>
    show Inv (b.getRetryAfter now).2
    rw [getRetryAfter_state]
    exact ⟨hI, h0, hc⟩
  case getAvailableTokens =>
    show Inv (b.getAvailableTokens now).2
    rw [getAvailableTokens_state]
    exact ⟨hI, h0, hc⟩

theorem runOps_inv (ops : List (Nat × BucketOp)) (b : TokenBucket)
    (h : Inv b) : Inv (b.runOps ops) := by
  induction ops generalizing b with
  | nil => exact h
  | cons op rest ih => exact ih _ (applyOp_inv b op h)

theorem applyOp_capacity (b : TokenBucket) (op : Nat × BucketOp) :
    (b.applyOp op).capacity = b.capacity := by
  obtain ⟨now, k⟩ := op
  cases k
  case tryConsume =>
    show (b.tryConsume now).2.capacity = b.capacity
    rw [tryConsume_state]
    split
    · exact refill_capacity b now
    · exact refill_capacity b now
  case getRetryAfter =>
    show (b.getRetryAfter now).2.capacity = b.capacity
    rw [getRetryAfter_state]
    exact refill_capacity b now
  case getAvailableTokens =>
    show (b.getAvailableTokens now).2.capacity = b.capacity
    rw [getAvailableTokens_state]
    exact refill_capacity b now

theorem runOps_capacity (ops : List (Nat × BucketOp)) (b : TokenBucket) :
    (b.runOps ops).capacity = b.capacity := by
  induction ops generalizing b with
  | nil => rfl
  | cons op rest ih => rw [runOps, ih, applyOp_capacity]

theorem tryConsume_true (b : TokenBucket) (now : Nat)
    (h : (b.tryConsume now).1 = true) : 1 ≤ (b.refill now).tokens := by
  unfold tryConsume at h
  dsimp only at h
  by_cases hcond : 1 ≤ (b.refill now).tokens
  · exact hcond
  · rw [if_neg hcond] at h
    simp at h

theorem tryConsume_true_tokens (b : TokenBucket) (now : Nat)
    (h : (b.tryConsume now).1 = true) :
    ((b.tryConsume now).2).tokens = (b.refill now).tokens - 1 := by
  have hcond := tryConsume_true b now h
  rw [tryConsume_state, if_pos hcond]

/-- Specification-side retry-after value: after refilling, the current
time when a whole token is available, otherwise the current time plus the
ceiling of the deficit times the window over the capacity. -/
def retryAfterSpec (b : TokenBucket) (now : Nat) : Int :=
  if 1 ≤ (b.refill now).tokens then (now : Int)
  else (now : Int) + ⌈(1 - (b.refill now).tokens) * b.refillInterval / b.capacity⌉

end TokenBucket

/-- C4: starting from construction with a full bucket, after every
sequence of timestamped tryConsume, getRetryAfter and getAvailableTokens
calls the token count stays within zero and capacity; getAvailableTokens
never returns a value exceeding the capacity; and a successful tryConsume
requires at least one post-refill token and decrements the unfloored count
by exactly one. -/
theorem C4_token_bucket_invariant (c interval : ℚ) (now0 : Nat)
    (ops : List (Nat × TokenBucket.BucketOp))
    (hc : 0 ≤ c) (hI : 0 < interval) :
    (0 ≤ ((TokenBucket.init c interval now0).runOps ops).tokens ∧
      ((TokenBucket.init c interval now0).runOps ops).tokens ≤ c) ∧
    (∀ now : Nat,
      ((((TokenBucket.init c interval now0).runOps ops).getAvailableTokens now).1 : ℚ) ≤ c) ∧
    (∀ (b : TokenBucket) (now : Nat), (b.tryConsume now).1 = true →
      1 ≤ (b.refill now).tokens ∧
      ((b.tryConsume now).2).tokens = (b.refill now).tokens - 1) := by
  have hinit : TokenBucket.Inv (TokenBucket.init c interval now0) :=
    ⟨hI, hc, le_refl c⟩
  have hinv := TokenBucket.runOps_inv ops _ hinit
  have hcap := TokenBucket.runOps_capacity ops (TokenBucket.init c interval now0)
  obtain ⟨hInt, h0, hle⟩ := hinv
  refine ⟨⟨h0, by rw [hcap] at hle; exact hle⟩, ?_, ?_⟩
  · intro now
    set bf := (TokenBucket.init c interval now0).runOps ops with hbf
    have hrinv := TokenBucket.refill_inv bf now ⟨hInt, h0, hle⟩
    obtain ⟨_, _, hrle⟩ := hrinv
    have hfloor : ((⌊(bf.refill now).tokens⌋ : ℚ)) ≤ (bf.refill now).tokens :=
      Int.floor_le _
    have hrc : (bf.refill now).capacity = c := by
      rw [TokenBucket.refill_capacity, hcap]
      rfl
    show ((⌊(bf.refill now).tokens⌋ : ℚ)) ≤ c
    calc ((⌊(bf.refill now).tokens⌋ : ℚ)) ≤ (bf.refill now).tokens := hfloor
      _ ≤ (bf.refill now).capacity := hrle
      _ = c := hrc
  · intro b now h
    exact ⟨TokenBucket.tryConsume_true b now h,
      TokenBucket.tryConsume_true_tokens b now h⟩

/-- Witness for C4 at capacity 2, window 10000 ms, with three consumes at
times 0, 0 and 5000. -/
theorem C4_token_bucket_invariant_witness :
    0 ≤ (2 : ℚ) ∧ 0 < (10000 : ℚ) ∧
    (0 ≤ ((TokenBucket.init 2 10000 0).runOps
        [(0, .tryConsume), (0, .tryConsume), (5000, .tryConsume)]).tokens ∧
      ((TokenBucket.init 2 10000 0).runOps
        [(0, .tryConsume), (0, .tryConsume), (5000, .tryConsume)]).tokens ≤ 2) :=
  ⟨by norm_num, by norm_num,
    (C4_token_bucket_invariant 2 10000 0
      [(0, .tryConsume), (0, .tryConsume), (5000, .tryConsume)]
      (by norm_num) (by norm_num)).1⟩

/-- C5: getRetryAfter refills first, then returns the current time when a
whole token is available and otherwise the current time plus the ceiling
of the deficit times refillWindowMs over capacity; the returned state is
exactly the refilled bucket. -/
theorem C5_retry_after_formula (b : TokenBucket) (now : Nat) :
    (b.getRetryAfter now).1 = TokenBucket.retryAfterSpec b now ∧
    (b.getRetryAfter now).2 = b.refill now := by
  refine ⟨?_, TokenBucket.getRetryAfter_state b now⟩
  unfold TokenBucket.getRetryAfter TokenBucket.retryAfterSpec
  dsimp only
  split
  · rfl
  · rw [TokenBucket.refill_interval, TokenBucket.refill_capacity,
      mul_div_assoc]

/-! TTL and LRU cache wrapper (Cache class, backed by the lru-cache
library).  Entries are kept most recently inserted first; an entry is
visible exactly when now is strictly before its expiry timestamp, and
lookups count hit and miss statistics.  Expiry is lazy: stale entries stay
in their slot but are treated as absent. -/

/-- Cache entry: stored value plus its absolute expiry timestamp. -/
structure CEntry (V : Type) where
  value : V
  expiresAt : Nat
deriving DecidableEq, Repr

/-- Cache state: configuration (maximum size and default time to live),
entries in recency order, and hit and miss counters. -/
structure CacheM (V : Type) where
  maxSize : Nat
  ttl : Nat
  entries : List (String × CEntry V)
  hits : Nat
  misses : Nat
deriving DecidableEq, Repr

namespace CacheM

/-- Fresh empty cache with the given capacity and default TTL. -/
def empty (V : Type) (maxSize ttl : Nat) : CacheM V :=
  { maxSize := maxSize, ttl := ttl, entries := [], hits := 0, misses := 0 }

/-- Raw lookup honoring TTL and touching no statistics. -/
def lookup {V : Type} (c : CacheM V) (k : String) (now : Nat) : Option V :=
  match c.entries.find? (fun e => e.1 == k) with
  | some (_, e) => if now < e.expiresAt then some e.value else none
  | none => none

/-- Get with statistics: a visible entry counts as a hit, anything else as
a miss. -/
def get {V : Type} (c : CacheM V) (k : String) (now : Nat) :
    Option V × CacheM V :=
  match c.lookup k now with
  | some v => (some v, { c with hits := c.hits + 1 })
  | none => (none, { c with misses := c.misses + 1 })

/-- Set with an optional per-entry TTL overriding the default; the new
entry goes to the front and the cache is truncated to capacity. -/
def set {V : Type} (c : CacheM V) (k : String) (v : V) (now : Nat)
    (ttlOverride : Option Nat) : CacheM V :=
  { c with entries :=
      ((k, { value := v, expiresAt := now + ttlOverride.getD c.ttl })
        :: c.entries.filter (fun e => e.1 != k)).take c.maxSize }

/-- Existence check honoring TTL without touching the statistics. -/
def has {V : Type} (c : CacheM V) (k : String) (now : Nat) :
    Bool × CacheM V :=
  ((c.lookup k now).isSome, c)

/-- Clear all entries and reset the statistics. -/
def clear {V : Type} (c : CacheM V) : CacheM V :=
  { c with entries := [], hits := 0, misses := 0 }

/-- Statistics record exposed by the cache. -/
structure Stats where
  size : Nat
  hitRate : ℚ
deriving DecidableEq, Repr

/-- Statistics: current entry count and hit rate, zero when no lookup has
happened yet. -/
def getStats {V : Type} (c : CacheM V) : Stats :=
  { size := c.entries.length,
    hitRate :=
      if 0 < c.hits + c.misses then
        (c.hits : ℚ) / (((c.hits : ℚ)) + ((c.misses : ℚ)))
      else 0 }

end CacheM

/-! Facade state and operations (SteamClient.ts and GameMatcher.ts).  The
network transport and the fuse.js search library are external
collaborators, supplied as oracles: a Remote value holds the outcome of
the raw catalog fetch and of each details fetch, and a FuseSearch function
stands for the search method of a fuse.js instance built over a catalog
snapshot, returning scored results for a query and a result limit. -/

/-- Cache key under which the full app list is stored. -/
def APP_LIST_CACHE_KEY : String := "steam_app_list"

/-- Remote collaborator: outcome of the app list fetch and of each
per-app details fetch, as the typed failures of the error taxonomy. -/
structure Remote where
  appList : Except SteamErr (List (Nat × String))
  details : String → Except SteamErr SteamGameDetails

/-- Oracle for the search method of a fuse.js index: catalog snapshot,
query string and result limit to a list of candidates with their fuzzy
distance (zero is best). -/
def FuseSearch : Type :=
  List SteamGame → String → Nat → List (SteamGame × ℚ)

/-- Whole client state: the two owned caches, the lazily built fuse index
snapshot of the matcher, and instrumentation counters recording how many
remote catalog and details fetches were issued. -/
structure ClientState where
  appListCache : CacheM (List SteamGame)
  detailsCache : CacheM SteamGameDetails
  fuse : Option (List SteamGame)
  catalogFetches : Nat
  detailFetches : Nat
deriving DecidableEq, Repr

/-- Initial client state as the SteamClient constructor builds it: an app
list cache of capacity one with a 24 hour TTL, a details cache with the
configured size and TTL, and no fuse index. -/
def ClientState.init (cacheSize cacheTTL : Nat) : ClientState :=
  { appListCache := CacheM.empty _ 1 86400000,
    detailsCache := CacheM.empty _ cacheSize cacheTTL,
    fuse := none,
    catalogFetches := 0,
    detailFetches := 0 }

/-- Private catalog accessor of the matcher: cache first, on miss fetch
the raw list remotely, map each row to a SteamGame and store the whole
list under the fixed key with a 24 hour TTL. -/
def getAppList (st : ClientState) (r : Remote) (now : Nat) :
    Except SteamErr (List SteamGame) × ClientState :=
  match st.appListCache.get APP_LIST_CACHE_KEY now with
  | (some lst, c1) => (.ok lst, { st with appListCache := c1 })
  | (none, c1) =>
    let st1 := { st with appListCache := c1,
                         catalogFetches := st.catalogFetches + 1 }
    match r.appList with
    | .error e => (.error e, st1)
    | .ok raw =>
      let appList : List SteamGame :=
        raw.map (fun p => { appId := toString p.1, name := p.2 })
      let c2 := st1.appListCache.set APP_LIST_CACHE_KEY appList now (some 86400000)
      (.ok appList, { st1 with appListCache := c2 })

/-- Exact match: fetch or reuse the catalog, then return the first entry
whose normalized name equals the normalized query.  There is no
empty-query guard on this operation. -/
def getExactMatch (st : ClientState) (r : Remote) (now : Nat)
    (title : String) : Except SteamErr (Option SteamGame) × ClientState :=
  match getAppList st r now with
  | (.error e, st1) => (.error e, st1)
  | (.ok appList, st1) =>
    (.ok (appList.find?
      (fun app => TitleNormalizer.normalize app.name ==
        TitleNormalizer.normalize title)), st1)

/-- Lazily build the fuse index: do nothing when it exists, otherwise
obtain the catalog and index it. -/
def ensureFuseInitialized (st : ClientState) (r : Remote) (now : Nat) :
    Except SteamErr Unit × ClientState :=
  match st.fuse with
  | some _ => (.ok (), st)
  | none =>
    match getAppList st r now with
    | (.error e, st1) => (.error e, st1)
    | (.ok lst, st1) => (.ok (), { st1 with fuse := some lst })

/-- Guard of the matcher search operations: the title is falsy or trims to
length zero, which holds exactly when every character is whitespace. -/
def isBlankTitle (title : String) : Bool :=
  title.toList.all TitleNormalizer.isWs

/-- Transformation applied to each fuse result: keep app id and name and
attach matchScore as one minus the distance. -/
def toScoredGame (rp : SteamGame × ℚ) : SteamGame :=
  { appId := rp.1.appId, name := rp.1.name, matchScore := some (1 - rp.2) }

/-- Find multiple matches: guard empty and whitespace-only titles, ensure
the fuse index, search it with the normalized title, keep candidates whose
distance is at most the threshold, and attach scores. -/
def findMatches (fs : FuseSearch) (st : ClientState) (r : Remote)
    (now : Nat) (title : String) (limit : Nat) (threshold : ℚ) :
    Except SteamErr (List SteamGame) × ClientState :=
  if isBlankTitle title then (.ok [], st)
  else
    match ensureFuseInitialized st r now with
    | (.error e, st1) => (.error e, st1)
    | (.ok _, st1) =>
      match st1.fuse with
      | none => (.ok [], st1)
      | some snapshot =>
        let results := fs snapshot (TitleNormalizer.normalize title) limit
        (.ok ((results.filter (fun rp => rp.2 ≤ threshold)).map toScoredGame),
          st1)

/-- Find the best match: guard empty titles, try the exact match first
with score one, then fall back to the first fuzzy result. -/
def findBestMatch (fs : FuseSearch) (st : ClientState) (r : Remote)
    (now : Nat) (title : String) (threshold : ℚ) :
    Except SteamErr (Option SteamGame) × ClientState :=
  if isBlankTitle title then (.ok none, st)
  else
    match getExactMatch st r now title with
    | (.error e, st1) => (.error e, st1)
    | (.ok (some g), st1) => (.ok (some { g with matchScore := some 1 }), st1)
    | (.ok none, st1) =>
      match findMatches fs st1 r now title 1 threshold with
      | (.error e, st2) => (.error e, st2)
      | (.ok ms, st2) => (.ok ms.head?, st2)

/-! Adult content detector (AdultContentDetector.ts). -/

namespace AdultContentDetector

/-- Age threshold of eighteen years. -/
def ADULT_AGE_THRESHOLD : Nat := 18

/-- Content descriptor id three marks adult-only sexual content. -/
def ADULT_DESCRIPTOR_ID : Nat := 3

/-- Age gate check: required age at least eighteen. -/
def hasAgeRestriction (requiredAge : Nat) : Bool :=
  ADULT_AGE_THRESHOLD ≤ requiredAge

/-- Descriptor check: descriptor id three present. -/
def hasAdultDescriptor (ids : List Nat) : Bool :=
  if ids.isEmpty then false else ids.contains ADULT_DESCRIPTOR_ID

/-- Substring test over character lists, used for the category check. -/
def containsSub (needle hay : List Char) : Bool :=
  match hay with
  | [] => needle.isEmpty
  | _ :: tl =>
    match TitleNormalizer.matchCI needle hay with
    | some _ => true
    | none => containsSub needle tl

/-- Category check: some category description contains the words adult
only, case-insensitively. -/
def hasAdultCategory (categories : List Category) : Bool :=
  if categories.isEmpty then false
  else categories.any
    (fun cat => containsSub (String.toList "adult only")
      cat.description.toList)

/-- Combined adult content signal. -/
def isAdult (d : SteamGameDetails) : Bool :=
  hasAgeRestriction d.requiredAge ||
  hasAdultDescriptor d.contentDescriptorIds ||
  hasAdultCategory d.categories

end AdultContentDetector

/-- Get details through the cache: cache first, on miss fetch remotely and
store the result only when the fetch succeeded. -/
def getGameDetails (st : ClientState) (r : Remote) (now : Nat)
    (appId : String) : Except SteamErr SteamGameDetails × ClientState :=
  match st.detailsCache.get appId now with
  | (some d, c1) => (.ok d, { st with detailsCache := c1 })
  | (none, c1) =>
    let st1 := { st with detailsCache := c1,
                         detailFetches := st.detailFetches + 1 }
    match r.details appId with
    | .error e => (.error e, st1)
    | .ok d =>
      (.ok d, { st1 with detailsCache := st1.detailsCache.set appId d now none })

/-- Adult probe of the facade: fetch details through the cache and
classify; any failure is swallowed and counted as not adult. -/
def isAdultContent (st : ClientState) (r : Remote) (now : Nat)
    (game : SteamGame) : Bool × ClientState :=
  match getGameDetails st r now game.appId with
  | (.ok d, st1) => (AdultContentDetector.isAdult d, st1)
  | (.error _, st1) => (false, st1)

/-- Negated adult probe used by the search filter. -/
def isAdultContentFiltered (st : ClientState) (r : Remote) (now : Nat)
    (game : SteamGame) : Bool × ClientState :=
  match isAdultContent st r now game with
  | (b, st1) => (!b, st1)

/-- Search options of the facade with their defaults. -/
structure SearchOptions where
  fuzzyThreshold : ℚ := 3 / 10
  includeAdult : Bool := false
deriving DecidableEq, Repr

/-- Single search of the facade: best match first, then, unless adult
entries are included, drop the match when the adult probe fires. -/
def searchGame (fs : FuseSearch) (st : ClientState) (r : Remote)
    (now : Nat) (title : String) (opts : SearchOptions) :
    Except SteamErr (Option SteamGame) × ClientState :=
  match findBestMatch fs st r now title opts.fuzzyThreshold with
  | (.error e, st1) => (.error e, st1)
  | (.ok none, st1) => (.ok none, st1)
  | (.ok (some m), st1) =>
    if !opts.includeAdult then
      match isAdultContentFiltered st1 r now m with
      | (filtered, st2) =>
        if !filtered then (.ok none, st2) else (.ok (some m), st2)
    else (.ok (some m), st1)

/-- Clear both caches; the fuse index of the matcher is left untouched,
exactly as SteamClient.clearCache does. -/
def clearCache (st : ClientState) : ClientState :=
  { st with appListCache := st.appListCache.clear,
            detailsCache := st.detailsCache.clear }

/-- Combined cache statistics record of the facade. -/
structure CacheStats where
  appListSize : Nat
  detailsCacheSize : Nat
  hitRate : ℚ
deriving DecidableEq, Repr

/-- Combined statistics: per-cache sizes plus a hit rate reconstructed as
the size-weighted average of the two per-cache hit rates, zero when both
caches are empty. -/
def getCacheStats (st : ClientState) : CacheStats :=
  let appListStats := st.appListCache.getStats
  let detailsStats := st.detailsCache.getStats
  let totalHits : ℚ :=
    appListStats.hitRate * appListStats.size +
    detailsStats.hitRate * detailsStats.size
  let totalSize : Nat := appListStats.size + detailsStats.size
  { appListSize := appListStats.size,
    detailsCacheSize := detailsStats.size,
    hitRate := if 0 < totalSize then totalHits / (totalSize : ℚ) else 0 }

/-! Price formatting (PriceFormatter.ts and MetadataExtractor.ts). -/

namespace PriceFormatter

/-- Format a price overview: the preformatted final price string. -/
def format (priceOverview : PriceOverview) : String :=
  priceOverview.finalFormatted

/-- Fixed string for free-to-play games. -/
def formatFree : String := "Free to Play"

end PriceFormatter

namespace MetadataExtractor

/-- Format the price of a game: the free flag wins over any price record,
then the price record, otherwise absent. -/
def formatPrice (priceOverview : Option PriceOverview) (isFree : Bool) :
    Option String :=
  if isFree then some PriceFormatter.formatFree
  else
    match priceOverview with
    | some po => some (PriceFormatter.format po)
    | none => none

end MetadataExtractor

/-! Helper lemmas shared by several claims. -/

theorem CacheM.get_fst {V : Type} (c : CacheM V) (k : String) (now : Nat) :
    (c.get k now).1 = c.lookup k now := by
  unfold CacheM.get
  cases h : c.lookup k now <;> rfl

theorem CacheM.lookup_congr {V : Type} (c c' : CacheM V) (k : String)
    (now : Nat) (h : c.entries = c'.entries) :
    c.lookup k now = c'.lookup k now := by
  unfold CacheM.lookup
  rw [h]

theorem getGameDetails_hit (st : ClientState) (r : Remote) (now : Nat)
    (appId : String) (d : SteamGameDetails)
    (hl : st.detailsCache.lookup appId now = some d) :
    getGameDetails st r now appId =
      (.ok d, { st with detailsCache :=
        { st.detailsCache with hits := st.detailsCache.hits + 1 } }) := by
  unfold getGameDetails CacheM.get
  rw [hl]

theorem getGameDetails_miss (st : ClientState) (r : Remote) (now : Nat)
    (appId : String)
    (hl : st.detailsCache.lookup appId now = none) :
    getGameDetails st r now appId =
      (let st1 : ClientState :=
        { st with
          detailsCache := { st.detailsCache with misses := st.detailsCache.misses + 1 },
          detailFetches := st.detailFetches + 1 }
      match r.details appId with
      | .error e => (.error e, st1)
      | .ok d =>
        (.ok d, { st1 with detailsCache := st1.detailsCache.set appId d now none })) := by
  unfold getGameDetails CacheM.get
  rw [hl]

/-! Claims -/

/-- C10: a free game always formats as the string Free to Play, even when
a price record is also present, because the free flag is checked first;
and a non-free game without a price record has no formatted price. -/
theorem C10_free_price_precedence :
    (∀ po : Option PriceOverview,
      MetadataExtractor.formatPrice po true = some "Free to Play") ∧
    MetadataExtractor.formatPrice none false = none := by
  exact ⟨fun _ => rfl, rfl⟩

/-- C8: the combined hit rate of getCacheStats is the entry-count weighted
average of the two per-cache hit rates when the combined entry count is
positive and zero otherwise; each per-cache hit rate is hits over lookups,
zero before any lookup; has never touches the counters; get increments
exactly the matching counter; and clear resets both counters. -/
theorem C8_cache_stats_formula (st : ClientState) :
    ((getCacheStats st).hitRate =
      if 0 < st.appListCache.getStats.size + st.detailsCache.getStats.size then
        (st.appListCache.getStats.hitRate * st.appListCache.getStats.size +
          st.detailsCache.getStats.hitRate * st.detailsCache.getStats.size) /
          ((st.appListCache.getStats.size : ℚ) + (st.detailsCache.getStats.size : ℚ))
      else 0) ∧
    (∀ (V : Type) (c : CacheM V),
      c.getStats.hitRate =
        if 0 < c.hits + c.misses then
          (c.hits : ℚ) / ((c.hits : ℚ) + (c.misses : ℚ))
        else 0) ∧
    (∀ (V : Type) (c : CacheM V) (k : String) (now : Nat),
      (c.has k now).2.hits = c.hits ∧ (c.has k now).2.misses = c.misses) ∧
    (∀ (V : Type) (c : CacheM V) (k : String) (now : Nat),
      ((c.get k now).1.isSome →
        (c.get k now).2.hits = c.hits + 1 ∧ (c.get k now).2.misses = c.misses) ∧
      ((c.get k now).1 = none →
        (c.get k now).2.misses = c.misses + 1 ∧ (c.get k now).2.hits = c.hits)) ∧
    (∀ (V : Type) (c : CacheM V), c.clear.hits = 0 ∧ c.clear.misses = 0) := by
  refine ⟨?_, ?_, ?_, ?_, ?_⟩
  · unfold getCacheStats
    dsimp only
    split
    · rw [Nat.cast_add]
    · rfl
  · intro V c
    rfl
  · intro V c k now
    exact ⟨rfl, rfl⟩
  · intro V c k now
    unfold CacheM.get
    cases hl : c.lookup k now <;> simp [hl]
  · intro V c
    exact ⟨rfl, rfl⟩

/-- Concrete one-entry cache for the C8 witness. -/
def c8cache : CacheM Nat :=
  { maxSize := 2, ttl := 100,
    entries := [("a", { value := 5, expiresAt := 10 })],
    hits := 0, misses := 0 }

/-- Witness for C8: a hit on the concrete cache increments exactly the hit
counter. -/
theorem C8_cache_stats_formula_witness :
    (c8cache.get "a" 0).2.hits = c8cache.hits + 1 ∧
    (c8cache.get "a" 0).2.misses = c8cache.misses :=
  ((C8_cache_stats_formula (ClientState.init 1000 3600000)).2.2.2.1 Nat
    c8cache "a" 0).1 (by decide)

/-- Concrete client state for the C2 counterexample: the app list cache
holds one unexpired catalog entry whose name normalizes to the empty
string. -/
def c2state : ClientState :=
  { appListCache :=
      { maxSize := 1, ttl := 86400000,
        entries := [(APP_LIST_CACHE_KEY,
          { value := [{ appId := "9", name := "!@#$%" }], expiresAt := 100 })],
        hits := 0, misses := 0 },
    detailsCache := CacheM.empty _ 1000 3600000,
    fuse := none, catalogFetches := 0, detailFetches := 0 }

/-- Remote collaborator for the C2 theorems. -/
def c2remote : Remote :=
  { appList := .ok [], details := fun _ => .error (.apiError 500) }

/-- C2 counterexample: a whitespace-only query to getExactMatch reads the
catalog cache (the hit counter increments) and even returns a match,
because the operation has no empty-query guard and the stored entry
normalizes to the empty string, which equals the normalized query. -/
theorem C2_counterexample_exact_match :
    (getExactMatch c2state c2remote 0 "   ").1 =
      .ok (some { appId := "9", name := "!@#$%" }) ∧
    (getExactMatch c2state c2remote 0 "   ").2.appListCache.hits =
      c2state.appListCache.hits + 1 := by
  exact ⟨rfl, rfl⟩

/-- C2 as amended: for findBestMatch and findMatches an empty or
whitespace-only query returns none respectively the empty list with the
client state completely untouched (so no cache lookup and no remote fetch
happens); getExactMatch carries no such guard. -/
theorem C2_empty_query_guard (fs : FuseSearch) (st : ClientState)
    (r : Remote) (now : Nat) (title : String) (threshold : ℚ) (limit : Nat)
    (h : isBlankTitle title = true) :
    findBestMatch fs st r now title threshold = (.ok none, st) ∧
    findMatches fs st r now title limit threshold = (.ok [], st) := by
  constructor
  · unfold findBestMatch
    rw [if_pos h]
  · unfold findMatches
    rw [if_pos h]

/-- Witness for C2 as amended, at a two-space query. -/
theorem C2_empty_query_guard_witness :
    (isBlankTitle "  " = true) ∧
    findBestMatch (fun _ _ _ => []) (ClientState.init 1000 3600000)
        c2remote 0 "  " (3 / 10) =
      (.ok none, ClientState.init 1000 3600000) :=
  ⟨by decide,
    (C2_empty_query_guard (fun _ _ _ => []) (ClientState.init 1000 3600000)
      c2remote 0 "  " (3 / 10) 5 (by decide)).1⟩

/-- C9: getGameDetails on a details cache hit returns the cached record
without any remote fetch; when the cache misses and the remote fetch
fails, the error propagates with the cache entries unchanged, and a
subsequent identical call issues a fresh fetch instead of serving a
cached failure. -/
theorem C9_details_cache_error_path (st : ClientState) (r : Remote)
    (now : Nat) (appId : String) :
    (∀ d, (st.detailsCache.get appId now).1 = some d →
      (getGameDetails st r now appId).1 = .ok d ∧
      (getGameDetails st r now appId).2.detailFetches = st.detailFetches) ∧
    (∀ e, (st.detailsCache.get appId now).1 = none →
      r.details appId = .error e →
      (getGameDetails st r now appId).1 = .error e ∧
      (getGameDetails st r now appId).2.detailsCache.entries =
        st.detailsCache.entries ∧
      (getGameDetails (getGameDetails st r now appId).2 r now appId).2.detailFetches =
        st.detailFetches + 2) := by
  constructor
  · intro d hd
    rw [CacheM.get_fst] at hd
    rw [getGameDetails_hit st r now appId d hd]
    exact ⟨rfl, rfl⟩
  · intro e hmiss herr
    rw [CacheM.get_fst] at hmiss
    have hstep := getGameDetails_miss st r now appId hmiss
    rw [herr] at hstep
    rw [hstep]
    refine ⟨rfl, rfl, ?_⟩
    have hmiss2 :
        ({ st.detailsCache with misses := st.detailsCache.misses + 1 } :
            CacheM SteamGameDetails).lookup appId now = none := by
      rw [CacheM.lookup_congr
        { st.detailsCache with misses := st.detailsCache.misses + 1 }
        st.detailsCache appId now rfl]
      exact hmiss
    have hstep2 := getGameDetails_miss
      ({ st with
        detailsCache := { st.detailsCache with misses := st.detailsCache.misses + 1 },
        detailFetches := st.detailFetches + 1 }) r now appId hmiss2
    rw [herr] at hstep2
    dsimp only
    rw [hstep2]

/-- Concrete inputs for the C9 witness: an empty client state whose remote
details fetch always fails, and a state preloaded with one details
entry. -/
def c9remote : Remote :=
  { appList := .ok [], details := fun _ => .error (.apiError 502) }

/-- Details record used by the C9 witness. -/
def c9details : SteamGameDetails :=
  { appId := "42", name := "Some Game", requiredAge := 0, isFree := false,
    priceOverview := none, categories := [], contentDescriptorIds := [] }

/-- Client state with a cached details entry for the C9 witness. -/
def c9stateHit : ClientState :=
  { ClientState.init 1000 3600000 with
    detailsCache :=
      { maxSize := 1000, ttl := 3600000,
        entries := [("42", { value := c9details, expiresAt := 50 })],
        hits := 0, misses := 0 } }

/-- Witness for C9: on the miss-and-fail path the error propagates, the
entries stay empty and two calls fetch twice; on the hit path the cached
record returns without a fetch. -/
theorem C9_details_cache_error_path_witness :
    ((getGameDetails (ClientState.init 1000 3600000) c9remote 0 "42").1 =
        .error (.apiError 502) ∧
      (getGameDetails (ClientState.init 1000 3600000) c9remote 0 "42").2.detailsCache.entries =
        (ClientState.init 1000 3600000).detailsCache.entries ∧
      (getGameDetails
          (getGameDetails (ClientState.init 1000 3600000) c9remote 0 "42").2
          c9remote 0 "42").2.detailFetches =
        (ClientState.init 1000 3600000).detailFetches + 2) ∧
    ((getGameDetails c9stateHit c9remote 0 "42").1 = .ok c9details ∧
      (getGameDetails c9stateHit c9remote 0 "42").2.detailFetches =
        c9stateHit.detailFetches) :=
  ⟨(C9_details_cache_error_path (ClientState.init 1000 3600000) c9remote 0
      "42").2 (.apiError 502) (by decide) rfl,
    (C9_details_cache_error_path c9stateHit c9remote 0 "42").1 c9details
      (by decide)⟩

/-- C7: during single search with adult filtering enabled, a failing
details fetch for the matched entry is swallowed rather than propagated:
the adult probe answers false (fail open) and the search still returns
the match. -/
theorem C7_adult_probe_fail_open (fs : FuseSearch) (st : ClientState)
    (r : Remote) (now : Nat) (title : String) (opts : SearchOptions)
    (m : SteamGame)
    (hmatch : (findBestMatch fs st r now title opts.fuzzyThreshold).1 =
      .ok (some m))
    (hAdultOff : opts.includeAdult = false)
    (hfail : ∃ e, (getGameDetails
      (findBestMatch fs st r now title opts.fuzzyThreshold).2 r now
        m.appId).1 = .error e) :
    (searchGame fs st r now title opts).1 = .ok (some m) ∧
    (isAdultContent (findBestMatch fs st r now title opts.fuzzyThreshold).2
      r now m).1 = false := by
  obtain ⟨e, he⟩ := hfail
  rcases hp : findBestMatch fs st r now title opts.fuzzyThreshold with ⟨res, st1⟩
  rw [hp] at hmatch he
  dsimp only at hmatch he
  subst hmatch
  have hia : (isAdultContent st1 r now m).1 = false := by
    unfold isAdultContent
    rcases hg : getGameDetails st1 r now m.appId with ⟨gres, st2⟩
    rw [hg] at he
    dsimp only at he
    subst he
    rfl
  refine ⟨?_, hia⟩
  unfold searchGame
  rw [hp]
  dsimp only
  rw [hAdultOff]
  unfold isAdultContentFiltered
  rcases hb : isAdultContent st1 r now m with ⟨b, st2⟩
  rw [hb] at hia
  dsimp only at hia
  subst hia
  rfl

/-- Remote collaborator for the C7 witness: the catalog fetch succeeds
with one game and every details fetch is rate limited. -/
def c7remote : Remote :=
  { appList := .ok [(1091500, "Cyberpunk 2077")],
    details := fun _ => .error (.rateLimit 12345) }

/-- Match returned in the C7 witness run. -/
def c7match : SteamGame :=
  { appId := "1091500", name := "Cyberpunk 2077", matchScore := some 1 }

/-- Witness for C7: with default options the search returns the matched
game although its details fetch fails. -/
theorem C7_adult_probe_fail_open_witness :
    (searchGame (fun _ _ _ => []) (ClientState.init 1000 3600000) c7remote 0
      "Cyberpunk 2077" {}).1 = .ok (some c7match) :=
  (C7_adult_probe_fail_open (fun _ _ _ => []) (ClientState.init 1000 3600000)
    c7remote 0 "Cyberpunk 2077" {} c7match rfl rfl
    ⟨.rateLimit 12345, rfl⟩).1

/-- Successful ensureFuseInitialized always leaves an index present. -/
theorem ensureFuse_cases (st : ClientState) (r : Remote) (now : Nat) :
    (∃ e st1, ensureFuseInitialized st r now = (.error e, st1)) ∨
    (∃ snap st1, ensureFuseInitialized st r now = (.ok (), st1) ∧
      st1.fuse = some snap) := by
  unfold ensureFuseInitialized
  cases hfu : st.fuse with
  | some snap =>
    right
    exact ⟨snap, st, rfl, hfu⟩
  | none =>
    rcases hga : getAppList st r now with ⟨res, st1⟩
    cases res with
    | error e =>
      left
      exact ⟨e, st1, rfl⟩
    | ok lst =>
      right
      exact ⟨lst, { st1 with fuse := some lst }, rfl, rfl⟩

/-- C3: whenever findMatches returns a list for a non-blank title, the
list has at most limit entries, every entry carries matchScore one minus a
fuzzy distance at most the threshold, the list is sorted best first, and
it is an order-preserving selection of the scored list the fuse library
produced over the indexed snapshot (so equal distances keep the order the
library emitted, which is catalog order) — provided the library honors its
contract of returning at most limit results in ascending distance
order. -/
theorem C3_find_matches_contract (fs : FuseSearch) (st : ClientState)
    (r : Remote) (now : Nat) (title : String) (limit : Nat) (threshold : ℚ)
    (out : List SteamGame)
    (hlen : ∀ snap q lim, (fs snap q lim).length ≤ lim)
    (hsort : ∀ snap q lim, (fs snap q lim).Pairwise (fun a b => a.2 ≤ b.2))
    (hne : isBlankTitle title = false)
    (hout : (findMatches fs st r now title limit threshold).1 = .ok out) :
    out.length ≤ limit ∧
    (∀ g ∈ out, ∃ d : ℚ, d ≤ threshold ∧ g.matchScore = some (1 - d)) ∧
    out.Pairwise (fun a b => ∀ x y,
      a.matchScore = some x → b.matchScore = some y → y ≤ x) ∧
    (∃ snap,
      (findMatches fs st r now title limit threshold).2.fuse = some snap ∧
      out.Sublist ((fs snap (TitleNormalizer.normalize title) limit).map
        toScoredGame)) := by
  have hne' : ¬(isBlankTitle title = true) := by
    rw [hne]
    exact Bool.false_ne_true
  unfold findMatches at hout ⊢
  rw [if_neg hne'] at hout ⊢
  rcases ensureFuse_cases st r now with ⟨e, st1, hE⟩ | ⟨snap, st1, hE, hsnap⟩
  · rw [hE] at hout
    dsimp only at hout
    cases hout
  · rw [hE] at hout ⊢
    dsimp only at hout ⊢
    rw [hsnap] at hout ⊢
    dsimp only at hout ⊢
    injection hout with hout
    subst hout
    refine ⟨?_, ?_, ?_, ?_⟩
    · rw [List.length_map]
      calc ((fs snap (TitleNormalizer.normalize title) limit).filter
            (fun rp => decide (rp.2 ≤ threshold))).length
          ≤ (fs snap (TitleNormalizer.normalize title) limit).length :=
            List.length_filter_le _ _
        _ ≤ limit := hlen snap (TitleNormalizer.normalize title) limit
    · intro g hg
      rw [List.mem_map] at hg
      obtain ⟨rp, hrp, hg⟩ := hg
      rw [List.mem_filter] at hrp
      obtain ⟨_, hpred⟩ := hrp
      refine ⟨rp.2, of_decide_eq_true hpred, ?_⟩
      rw [← hg]
      rfl
    · rw [List.pairwise_map]
      refine List.Pairwise.imp ?_
        ((hsort snap (TitleNormalizer.normalize title) limit).filter _)
      intro a b hab x y hx hy
      have hx2 : x = 1 - a.2 := by
        have : (toScoredGame a).matchScore = some (1 - a.2) := rfl
        rw [this] at hx
        exact (Option.some_inj.mp hx).symm
      have hy2 : y = 1 - b.2 := by
        have : (toScoredGame b).matchScore = some (1 - b.2) := rfl
        rw [this] at hy
        exact (Option.some_inj.mp hy).symm
      rw [hx2, hy2]
      linarith
    · exact ⟨snap, hsnap,
        List.Sublist.map toScoredGame (List.filter_sublist _)⟩

/-- Fuse oracle for the C3 witness: every snapshot entry at distance zero,
truncated to the limit. -/
def c3fuse : FuseSearch := fun snap _ lim =>
  (snap.map (fun g => (g, (0 : ℚ)))).take lim

/-- Client state for the C3 witness, with the index already built over a
one-entry snapshot. -/
def c3state : ClientState :=
  { ClientState.init 1000 3600000 with
    fuse := some [{ appId := "7", name := "Gothic" }] }

/-- Result list of the C3 witness run. -/
def c3out : List SteamGame :=
  [{ appId := "7", name := "Gothic", matchScore := some 1 }]

/-- Remote collaborator for the C3 witness; it is never consulted. -/
def c3remote : Remote :=
  { appList := .ok [], details := fun _ => .error (.apiError 500) }

/-- Witness for C3 on a concrete one-entry snapshot. -/
theorem C3_find_matches_contract_witness :
    c3out.length ≤ 5 ∧
    (∀ g ∈ c3out, ∃ d : ℚ, d ≤ 3 / 10 ∧ g.matchScore = some (1 - d)) ∧
    c3out.Pairwise (fun a b => ∀ x y,
      a.matchScore = some x → b.matchScore = some y → y ≤ x) ∧
    (∃ snap,
      (findMatches c3fuse c3state c3remote 0 "Gothic" 5 (3 / 10)).2.fuse =
        some snap ∧
      c3out.Sublist ((c3fuse snap (TitleNormalizer.normalize "Gothic") 5).map
        toScoredGame)) := by
  refine C3_find_matches_contract c3fuse c3state c3remote 0 "Gothic" 5
    (3 / 10) c3out ?_ ?_ (by decide) (by with_unfolding_all rfl)
  · intro snap q lim
    unfold c3fuse
    rw [List.length_take]
    exact min_le_left _ _
  · intro snap q lim
    unfold c3fuse
    refine List.Pairwise.sublist (List.take_sublist _ _) ?_
    rw [List.pairwise_map]
    induction snap with
    | nil => exact List.Pairwise.nil
    | cons hd tl ih => exact List.Pairwise.cons (fun b hb => le_refl 0) ih

/-- Fuse oracle for the C1 run: exact normalized-name matches at distance
zero, truncated to the limit. -/
def c1fuse : FuseSearch := fun snap q lim =>
  ((snap.filter (fun g => TitleNormalizer.normalize g.name == q)).map
    (fun g => (g, (0 : ℚ)))).take lim

/-- Remote catalog before the cache clear. -/
def c1remoteOld : Remote :=
  { appList := .ok [(1, "Old Game")],
    details := fun _ => .error (.apiError 500) }

/-- Remote catalog after the cache clear: a different game. -/
def c1remoteNew : Remote :=
  { appList := .ok [(2, "New Game")],
    details := fun _ => .error (.apiError 500) }

/-- State after the first fuzzy search built the index from the old
catalog. -/
def c1afterFirstSearch : ClientState :=
  (findMatches c1fuse (ClientState.init 1000 3600000) c1remoteOld 0
    "Old Game" 5 (3 / 10)).2

/-- State after SteamClient.clearCache. -/
def c1afterClear : ClientState := clearCache c1afterFirstSearch

/-- State after the cleared catalog cache was refetched (an exact-match
lookup repopulates it from the new remote catalog). -/
def c1afterRefetch : ClientState :=
  (getExactMatch c1afterClear c1remoteNew 10 "New Game").2

/-- C1 failing run: the first fuzzy search builds the index from the old
catalog; the cache is cleared and refetched so it now holds only the new
catalog; yet the matcher's fuse index still holds the pre-clear snapshot
and the next fuzzy search answers with the old entry, whose app id is
absent from the freshly cached catalog — the index is never invalidated,
contradicting the claim. -/
theorem C1_stale_fuse_after_clear :
    (findMatches c1fuse (ClientState.init 1000 3600000) c1remoteOld 0
        "Old Game" 5 (3 / 10)).1 =
      .ok [{ appId := "1", name := "Old Game", matchScore := some 1 }] ∧
    c1afterFirstSearch.fuse = some [{ appId := "1", name := "Old Game" }] ∧
    (getExactMatch c1afterClear c1remoteNew 10 "New Game").1 =
      .ok (some { appId := "2", name := "New Game" }) ∧
    c1afterRefetch.appListCache.lookup APP_LIST_CACHE_KEY 10 =
      some [{ appId := "2", name := "New Game" }] ∧
    c1afterRefetch.fuse = some [{ appId := "1", name := "Old Game" }] ∧
    (findMatches c1fuse c1afterRefetch c1remoteNew 10 "Old Game" 5
        (3 / 10)).1 =
      .ok [{ appId := "1", name := "Old Game", matchScore := some 1 }] ∧
    ((c1afterRefetch.appListCache.lookup APP_LIST_CACHE_KEY 10).getD
      []).map SteamGame.appId = ["2"] ∧
    "1" ∉ ((c1afterRefetch.appListCache.lookup APP_LIST_CACHE_KEY 10).getD
      []).map SteamGame.appId := by
  refine ⟨by with_unfolding_all rfl, rfl, rfl, rfl, rfl,
    by with_unfolding_all rfl, rfl, by decide⟩

/-- C6: the normalizer satisfies exactly the five specification equations:
the FitGirl repack annotation is removed, the Premium Edition suffix and
the colon are removed, the hyphen of Spider-Man is preserved, the empty
string maps to itself, and a punctuation-only title maps to the empty
string. -/
theorem C6_normalizer_equations :
    TitleNormalizer.normalize "Cyberpunk 2077 (FitGirl Repack, Selective Download)"
      = "cyberpunk 2077" ∧
    TitleNormalizer.normalize "Grand Theft Auto V: Premium Edition"
      = "grand theft auto v" ∧
    TitleNormalizer.normalize "Spider-Man" = "spider-man" ∧
    TitleNormalizer.normalize "" = "" ∧
    TitleNormalizer.normalize "!@#$%" = "" := by
  refine ⟨?_, ?_, ?_, ?_, ?_⟩ <;> rfl

